import Mathlib

/-!
Verification of the CroAviation backend core (src/index.js, plus the two
query handlers that appear only in the later revision under src/unnamed).

The service is a set of stateless HTTP handlers over a document store with
two collections, users and planes.  We embed the store as two Lean lists in
insertion order (Mongo natural order for these workloads), and each handler
as a pure function from request data and store state to a result and, for
mutating handlers, a new state.  External crypto is modelled abstractly:

* bcrypt.hash(password, cost) becomes a record keeping the cost, the salt
  and a digest that bcrypt.compare accepts exactly for the original
  password (ideal hash: no collisions, which is the intended reading).
* jwt.sign(payload, secret) becomes a record of the payload and a signature
  value determined by payload and secret; jwt.verify recomputes it, so a
  signature checks out exactly when it was produced with the same secret
  over the same payload (ideal MAC, unforgeable).  As in the jsonwebtoken
  library, verification checks the signature first and the exp claim after,
  and a token counts as expired when the clock is at or past exp.

Time is seconds since the epoch as a Nat.  A JS falsy string field (absent
or empty) is modelled as the empty string.
-/

namespace CroAviation

/-- Result of bcrypt.hash(password, cost): cost factor, salt, and a digest.
The digest is modelled as an ideal one-way image of the password: compare
succeeds exactly on the original password. -/
structure BcryptDigest where
  cost : Nat
  salt : Nat
  digest : String
deriving DecidableEq, Repr

/-- bcrypt.hash(password, cost), with the salt drawn by the library made an
explicit argument. -/
def bcryptHash (salt cost : Nat) (password : String) : BcryptDigest :=
  ⟨cost, salt, password⟩

/-- bcrypt.compare(password, storedHash). -/
def bcryptCompare (password : String) (h : BcryptDigest) : Bool :=
  h.digest == password

/-- A document of the users collection, as built by the register handler in
src/index.js: username, email, bcrypt password hash, plane counter,
profile-image path and creation time. -/
structure User where
  username : String
  email : String
  password : BcryptDigest
  numberOfPlanes : Nat
  profileImage : String
  createdAt : Nat
deriving DecidableEq, Repr

/-- A document of the planes collection, as built by the add-plane handler
in src/index.js.  userId holds the owner email taken from the verified
token. -/
structure Plane where
  airport : String
  planeModel : String
  airline : String
  registration : String
  arrivalDate : Nat
  departureDate : Nat
  userId : String
  planeImage : String
  createdAt : Nat
deriving DecidableEq, Repr

/-- The store: the two collections, each in insertion order. -/
structure DB where
  users : List User
  planes : List Plane
deriving DecidableEq, Repr

/-- The payload signed into the tokens of this service: only the email
claim plus the exp claim added by the expiresIn option. -/
structure JwtPayload where
  email : String
  exp : Nat
deriving DecidableEq, Repr

/-- The signature over a payload under a secret, modelled as an ideal MAC:
two signatures coincide exactly when payload and secret both do. -/
def jwtSignature (payload : JwtPayload) (secret : String) : JwtPayload × String :=
  (payload, secret)

/-- A structurally well-formed JWT: a payload together with the signature
carried by the token (not necessarily a valid one). -/
structure JwtToken where
  payload : JwtPayload
  sig : JwtPayload × String
deriving DecidableEq, Repr

/-- jwt.sign(payload, secret): attaches the correct signature. -/
def jwtSign (payload : JwtPayload) (secret : String) : JwtToken :=
  ⟨payload, jwtSignature payload secret⟩

/-- A token string as presented by a client: either garbage that does not
decode as a JWT at all, or a structurally well-formed token. -/
inductive Presented where
  | malformed (raw : String)
  | token (t : JwtToken)
deriving DecidableEq, Repr

/-- Outcome of jwt.verify: the error cases the callbacks in src/index.js
distinguish (TokenExpiredError with its expiredAt field, any other error)
and the success case carrying the decoded payload. -/
inductive VerifyResult where
  | expired (expiredAt : Nat)
  | invalid
  | ok (payload : JwtPayload)
deriving DecidableEq, Repr

/-- jwt.verify(token, secret) at clock time now.  Following the library, a
malformed token or a wrong signature fails before the exp claim is looked
at; an expired token with a valid signature raises TokenExpiredError. -/
def jwtVerify (secret : String) (now : Nat) : Presented → VerifyResult
  | .malformed _ => .invalid
  | .token t =>
    if t.sig = jwtSignature t.payload secret then
      if t.payload.exp ≤ now then .expired t.payload.exp
      else .ok t.payload
    else .invalid

/-- Outcome of the authenticateToken middleware (src/index.js lines
112-131): 401 with no token, 403 for an expired or invalid one, or the
decoded identity stored on the request. -/
inductive AuthGate where
  | unauthenticated
  | tokenExpired (expiredAt : Nat)
  | invalidToken
  | authed (email : String)
deriving DecidableEq, Repr

/-- The authenticateToken middleware.  The argument is the bearer token
extracted from the Authorization header, none when the header is missing
or carries no token part. -/
def authenticateToken (secret : String) (now : Nat) : Option Presented → AuthGate
  | none => .unauthenticated
  | some p =>
    match jwtVerify secret now p with
    | .expired e => .tokenExpired e
    | .invalid => .invalidToken
    | .ok payload => .authed payload.email

/-- An error response: HTTP status and the message field of the JSON body. -/
structure ApiError where
  status : Nat
  message : String
deriving DecidableEq, Repr

/-- Success body of POST /api/register (201). -/
structure RegisterOk where
  message : String
  token : JwtToken
  refreshToken : JwtToken
deriving DecidableEq, Repr

/-- POST /api/register (src/index.js lines 166-203).  The salt argument
makes the salt drawn inside bcrypt.hash explicit; now is the request time
used both for createdAt and as the iat from which expiresIn counts
(1h = 3600 s for the access token, 7d = 604800 s for the refresh token). -/
def register (secret : String) (now salt : Nat) (username email password : String)
    (db : DB) : Except ApiError (RegisterOk × DB) :=
  if username = "" ∨ email = "" ∨ password = "" then
    .error ⟨400, "All fields are required"⟩
  else if (db.users.find? (fun u => u.email == email)).isSome then
    .error ⟨400, "Email already in use"⟩
  else
    let newUser : User :=
      { username := username, email := email
        password := bcryptHash salt 10 password
        numberOfPlanes := 0, profileImage := "", createdAt := now }
    let token := jwtSign ⟨email, now + 3600⟩ secret
    let refreshToken := jwtSign ⟨email, now + 604800⟩ secret
    .ok (⟨"Registration successful", token, refreshToken⟩,
      { db with users := db.users ++ [newUser] })

/-- Success body of POST /api/login (200). -/
structure LoginOk where
  message : String
  token : JwtToken
  refreshToken : JwtToken
  username : String
deriving DecidableEq, Repr

/-- POST /api/login (src/index.js lines 206-233). -/
def login (secret : String) (now : Nat) (email password : String) (db : DB) :
    Except ApiError LoginOk :=
  match db.users.find? (fun u => u.email == email) with
  | none => .error ⟨400, "Invalid credentials"⟩
  | some user =>
    if bcryptCompare password user.password then
      .ok ⟨"Login successful", jwtSign ⟨email, now + 3600⟩ secret,
        jwtSign ⟨email, now + 604800⟩ secret, user.username⟩
    else .error ⟨400, "Invalid credentials"⟩

/-- POST /api/refresh-token (src/index.js lines 154-163).  The body token
field, none when absent.  Any verification failure, expiry included, is
answered with the same 403; on success a fresh 1-hour access token is
signed over the email claim of the presented token. -/
def refreshTokenEndpoint (secret : String) (now : Nat) :
    Option Presented → Except ApiError JwtToken
  | none => .error ⟨401, "No refresh token provided"⟩
  | some p =>
    match jwtVerify secret now p with
    | .ok payload => .ok (jwtSign ⟨payload.email, now + 3600⟩ secret)
    | _ => .error ⟨403, "Invalid refresh token"⟩

/-- Mongo updateOne: rewrites the first document satisfying the filter and
leaves the rest alone; a miss changes nothing. -/
def updateOne (p : User → Bool) (f : User → User) : List User → List User
  | [] => []
  | u :: us => if p u then f u :: us else u :: updateOne p f us

/-- Mongo deleteOne on users keyed by email: removes the first match. -/
def deleteOneUser (email : String) : List User → List User
  | [] => []
  | u :: us => if u.email == email then us else u :: deleteOneUser email us

/-- Body fields of POST /api/add-plane; the four required ones are strings
(empty meaning missing), the two dates and the uploaded file are optional. -/
structure AddPlaneReq where
  airport : String
  planeModel : String
  airline : String
  registration : String
  arrivalDate : Option Nat
  departureDate : Option Nat
  planeImage : Option String
deriving DecidableEq, Repr

/-- The plane document the add-plane handler inserts for identity em. -/
def mkPlane (now : Nat) (em : String) (r : AddPlaneReq) : Plane :=
  { airport := r.airport, planeModel := r.planeModel, airline := r.airline
    registration := r.registration
    arrivalDate := r.arrivalDate.getD now
    departureDate := r.departureDate.getD now
    userId := em
    planeImage := match r.planeImage with
      | some f => "/uploads/" ++ f
      | none => ""
    createdAt := now }

/-- POST /api/add-plane after the authenticateToken gate (src/index.js
lines 255-293); em is the email of the verified identity.  Inserts the
plane, then $inc the numberOfPlanes of the user document matching em. -/
def addPlane (now : Nat) (em : String) (r : AddPlaneReq) (db : DB) :
    Except ApiError DB :=
  if r.airport = "" ∨ r.planeModel = "" ∨ r.airline = "" ∨ r.registration = "" then
    .error ⟨400, "Required fields missing"⟩
  else
    .ok { users := updateOne (fun u => u.email == em)
                     (fun u => { u with numberOfPlanes := u.numberOfPlanes + 1 })
                     db.users,
          planes := db.planes ++ [mkPlane now em r] }

/-- POST /api/upload-profile-image after the gate, success path
(src/index.js lines 298-320): $set the profileImage of the user matching
em to the stored path of the uploaded file. -/
def uploadProfileImage (em filename : String) (db : DB) : DB :=
  let users := updateOne (fun u => u.email == em)
    (fun u => { u with profileImage := "/uploads/" ++ filename }) db.users
  { db with users := users }

/-- DELETE /api/delete-account after the gate (src/index.js lines
323-333), first step: deleteMany on planes with userId = em. -/
def deletePlanesOf (em : String) (db : DB) : DB :=
  { db with planes := db.planes.filter (fun p => p.userId != em) }

/-- Second step of the delete-account handler: deleteOne on users. -/
def deleteUserByEmail (em : String) (db : DB) : DB :=
  { db with users := deleteOneUser em db.users }

/-- DELETE /api/delete-account: the two cascade steps in handler order,
planes first, then the user. -/
def deleteAccount (em : String) (db : DB) : DB :=
  deleteUserByEmail em (deletePlanesOf em db)

/-- One atom of the pattern the query handlers build: a literal character,
or the regex dot matching any character.  The query parameter is spliced
into the pattern unescaped, so we model the literal-and-dot fragment of JS
regular expressions, which is exact for every query made of ordinary
characters and dots. -/
inductive RAtom where
  | lit (c : Char)
  | any
deriving DecidableEq, Repr

/-- Whether one pattern atom matches one subject character under the
case-insensitive flag i. -/
def atomMatches (a : RAtom) (c : Char) : Bool :=
  match a with
  | .any => true
  | .lit l => l.toLower == c.toLower

/-- Anchored match of an atom sequence against a whole character list:
the semantics of pattern caret-atoms-dollar. -/
def regexIMatch : List RAtom → List Char → Bool
  | [], [] => true
  | a :: pat, c :: s => atomMatches a c && regexIMatch pat s
  | _, _ => false

/-- The pattern compiled from a raw query string: a dot becomes the
any-character atom, every other character a literal. -/
def compilePattern (q : List Char) : List RAtom :=
  q.map (fun c => if c == '.' then RAtom.any else RAtom.lit c)

/-- new RegExp(caret ++ q ++ dollar, i).test s, the filter the query
handlers run against stored airport and airline fields. -/
def anchoredIMatch (q s : String) : Bool :=
  regexIMatch (compilePattern q.data) s.data

/-- Case-insensitive exact string comparison, the matching the spec
describes. -/
def lowerEq (a b : String) : Bool :=
  a.data.map Char.toLower == b.data.map Char.toLower

/-- The username lookup the query handlers run per matched plane: the
first user whose email equals the userId of the record, with the sentinel
for a missing owner. -/
def lookupUsername (users : List User) (email : String) : String :=
  match users.find? (fun u => u.email == email) with
  | some u => u.username
  | none => "Unknown"

/-- A plane record enriched with the username of its owner, as returned by
the list handlers. -/
structure EnrichedPlane where
  plane : Plane
  username : String
deriving DecidableEq, Repr

/-- GET /api/planes/:airport (src/index.js lines 336-362): filter the
planes by the case-insensitive anchored regex built from the raw airport
parameter, then join in each owner username. -/
def listPlanes (airport : String) (db : DB) : List EnrichedPlane :=
  (db.planes.filter (fun p => anchoredIMatch airport p.airport)).map
    (fun p => ⟨p, lookupUsername db.users p.userId⟩)

/-- GET /api/planes/:airport/:airline (later revision under src/unnamed):
both parameters become case-insensitive anchored regexes. -/
def listPlanesByAirline (airport airline : String) (db : DB) : List EnrichedPlane :=
  (db.planes.filter
      (fun p => anchoredIMatch airport p.airport && anchoredIMatch airline p.airline)).map
    (fun p => ⟨p, lookupUsername db.users p.userId⟩)

/-- GET /api/airlines/:airport (later revision under src/unnamed):
distinct airline values among the planes matching the airport regex.
Mongo distinct returns each value once; dedup keeps first occurrences. -/
def listAirlines (airport : String) (db : DB) : List String :=
  ((db.planes.filter (fun p => anchoredIMatch airport p.airport)).map Plane.airline).dedup

/-- The states the store can reach from empty through the mutating
handlers: successful register, successful add-plane under any verified
identity, profile-image upload, account deletion.  Failed calls leave the
store untouched, so they add no states. -/
inductive Reachable (secret : String) : DB → Prop where
  | init : Reachable secret ⟨[], []⟩
  | registerOk (now salt : Nat) (u e pw : String) (db : DB) (out : RegisterOk)
      (db' : DB) : Reachable secret db →
      register secret now salt u e pw db = .ok (out, db') → Reachable secret db'
  | addPlaneOk (now : Nat) (em : String) (r : AddPlaneReq) (db db' : DB) :
      Reachable secret db → addPlane now em r db = .ok db' → Reachable secret db'
  | uploadOk (em filename : String) (db : DB) : Reachable secret db →
      Reachable secret (uploadProfileImage em filename db)
  | deleteOk (em : String) (db : DB) : Reachable secret db →
      Reachable secret (deleteAccount em db)

/-! Helper lemmas shared by the claim theorems. -/

lemma updateOne_map_email (p : User → Bool) (f : User → User)
    (hf : ∀ u, (f u).email = u.email) :
    ∀ l : List User, (updateOne p f l).map User.email = l.map User.email := by
  intro l
  induction l with
  | nil => rfl
  | cons u us ih =>
    by_cases h : p u
    · simp [updateOne, h, hf]
    · simp [updateOne, h, ih]

lemma updateOne_eq_of_none (p : User → Bool) (f : User → User) :
    ∀ l : List User, (∀ x ∈ l, p x = false) → updateOne p f l = l := by
  intro l
  induction l with
  | nil => intro; rfl
  | cons u us ih =>
    intro h
    have hu := h u (by simp)
    simp [updateOne, hu, ih fun x hx => h x (by simp [hx])]

lemma updateOne_append (p : User → Bool) (f : User → User) (l1 l2 : List User)
    (u : User) (h1 : ∀ x ∈ l1, p x = false) (hu : p u = true) :
    updateOne p f (l1 ++ u :: l2) = l1 ++ f u :: l2 := by
  induction l1 with
  | nil => simp [updateOne, hu]
  | cons v vs ih =>
    have hv := h1 v (by simp)
    simp [updateOne, hv, ih fun x hx => h1 x (by simp [hx])]

lemma deleteOneUser_sublist (em : String) :
    ∀ l : List User, (deleteOneUser em l).Sublist l := by
  intro l
  induction l with
  | nil => simp [deleteOneUser]
  | cons u us ih =>
    by_cases h : u.email == em
    · rw [deleteOneUser, if_pos h]
      exact List.sublist_cons_self u us
    · rw [deleteOneUser, if_neg h]
      exact List.Sublist.cons₂ u ih

/-- Inversion of a successful register call: the validations passed, the
inserted user and the issued tokens have exactly the shapes written in the
handler. -/
lemma register_ok_elim {secret : String} {now salt : Nat} {u e pw : String}
    {db : DB} {out : RegisterOk} {db' : DB}
    (h : register secret now salt u e pw db = .ok (out, db')) :
    out = ⟨"Registration successful", jwtSign ⟨e, now + 3600⟩ secret,
        jwtSign ⟨e, now + 604800⟩ secret⟩ ∧
    db' = { db with users := db.users ++
        [{ username := u, email := e, password := bcryptHash salt 10 pw,
           numberOfPlanes := 0, profileImage := "", createdAt := now }] } ∧
    ¬(u = "" ∨ e = "" ∨ pw = "") ∧
    db.users.find? (fun x => x.email == e) = none := by
  unfold register at h
  split at h
  · exact absurd h (by simp)
  · split at h
    · exact absurd h (by simp)
    · rename_i hval hfind
      obtain ⟨ho, hd⟩ := Prod.mk.injEq .. ▸ Except.ok.injEq .. ▸ h
      refine ⟨ho.symm, hd.symm, hval, ?_⟩
      simpa [Option.not_isSome_iff_eq_none] using hfind

/-- Inversion of a successful add-plane call: the validations passed and
the new state is the insert plus the counter update. -/
lemma addPlane_ok_elim {now : Nat} {em : String} {r : AddPlaneReq}
    {db db' : DB} (h : addPlane now em r db = .ok db') :
    db' = { users := updateOne (fun u => u.email == em)
              (fun u => { u with numberOfPlanes := u.numberOfPlanes + 1 })
              db.users,
            planes := db.planes ++ [mkPlane now em r] } ∧
    ¬(r.airport = "" ∨ r.planeModel = "" ∨ r.airline = "" ∨ r.registration = "") := by
  unfold addPlane at h
  split at h
  · exact absurd h (by simp)
  · rename_i hval
    exact ⟨(Except.ok.injEq .. ▸ h).symm, hval⟩

/-- Every state the mutating handlers can reach keeps the users collection
free of duplicate emails: register refuses a second user with an existing
email, updates keep emails, deletion only removes. -/
lemma reachable_emails_nodup {secret : String} {db : DB}
    (h : Reachable secret db) : (db.users.map User.email).Nodup := by
  induction h with
  | init => simp
  | registerOk now salt u e pw db out db' _ heq ih =>
    obtain ⟨-, hdb', -, hfind⟩ := register_ok_elim heq
    have hnotmem : e ∉ db.users.map User.email := by
      rw [List.find?_eq_none] at hfind
      simp only [List.mem_map]
      rintro ⟨x, hx, hxe⟩
      exact absurd (by simp [hxe]) (hfind x hx)
    subst hdb'
    simp only [List.map_append, List.map_cons, List.map_nil,
      List.nodup_append, List.nodup_cons]
    refine ⟨ih, by simp, fun a ha hae => ?_⟩
    exact hnotmem ((List.mem_singleton.mp hae) ▸ ha)
  | addPlaneOk now em r db db' _ heq ih =>
    obtain ⟨hdb', -⟩ := addPlane_ok_elim heq
    subst hdb'
    have hm := updateOne_map_email (fun u => u.email == em)
      (fun u => { u with numberOfPlanes := u.numberOfPlanes + 1 }) (fun _ => rfl) db.users
    simpa [hm] using ih
  | uploadOk em filename db _ ih =>
    have hm := updateOne_map_email (fun u => u.email == em)
      (fun u => { u with profileImage := "/uploads/" ++ filename }) (fun _ => rfl) db.users
    simpa [uploadProfileImage, hm] using ih
  | deleteOk em db _ ih =>
    exact ih.sublist ((deleteOneUser_sublist em db.users).map User.email)

lemma regexIMatch_noDot (qs : List Char) (h : '.' ∉ qs) :
    ∀ ss : List Char,
      regexIMatch (compilePattern qs) ss = (qs.map Char.toLower == ss.map Char.toLower) := by
  induction qs with
  | nil =>
    intro ss
    cases ss <;> simp [compilePattern, regexIMatch]
  | cons c cs ih =>
    intro ss
    simp only [List.mem_cons, not_or] at h
    have hne : ¬c = '.' := fun hcc => h.1 hcc.symm
    have h1 : compilePattern (c :: cs) = RAtom.lit c :: compilePattern cs := by
      simp [compilePattern, hne]
    cases ss with
    | nil => simp [regexIMatch, h1]
    | cons d ds =>
      have ihd := ih h.2 ds
      rw [h1]
      show (atomMatches (RAtom.lit c) d && regexIMatch (compilePattern cs) ds) = _
      rw [ihd, List.map_cons, List.map_cons]
      show (c.toLower == d.toLower && _) = _
      cases hcd : c.toLower == d.toLower <;> simp [hcd]

/-- For a query free of the regex dot, the anchored case-insensitive regex
test the handlers run is exactly case-insensitive string equality. -/
lemma anchoredIMatch_noDot (q s : String) (h : '.' ∉ q.data) :
    anchoredIMatch q s = lowerEq q s := by
  simpa [anchoredIMatch, lowerEq] using regexIMatch_noDot q.data h s.data

lemma lowerEq_congr_left (a a' s : String)
    (h : a.data.map Char.toLower = a'.data.map Char.toLower) :
    lowerEq a s = lowerEq a' s := by
  simp [lowerEq, h]

/-! Claim theorems. -/

/-- C1: at every reachable state of the store there is at most one user
per email, and register answers the 400 conflict error whenever a user
with the given email already exists (for a request that passes the field
validation run first by the handler). -/
theorem uniqueEmailInvariant (secret : String) :
    (∀ db : DB, Reachable secret db → (db.users.map User.email).Nodup) ∧
    (∀ (db : DB) (now salt : Nat) (u e pw : String),
      u ≠ "" → e ≠ "" → pw ≠ "" → (∃ x ∈ db.users, x.email = e) →
      register secret now salt u e pw db = .error ⟨400, "Email already in use"⟩) := by
  refine ⟨fun db h => reachable_emails_nodup h, ?_⟩
  rintro db now salt u e pw hu he hpw ⟨x, hx, hxe⟩
  unfold register
  rw [if_neg (by simp [hu, he, hpw])]
  rw [if_pos ?_]
  exact List.find?_isSome.mpr ⟨x, hx, by simp [hxe]⟩

/-- A concrete store used by witnesses: the state after one successful
register call on the empty store. -/
def demoUser : User :=
  { username := "bob", email := "a@x.com", password := bcryptHash 2 10 "pw",
    numberOfPlanes := 0, profileImage := "", createdAt := 1 }

/-- The store holding exactly demoUser and no planes. -/
def demoDb : DB := ⟨[demoUser], []⟩

lemma demoDb_reachable : Reachable "s" demoDb :=
  Reachable.registerOk 1 2 "bob" "a@x.com" "pw" ⟨[], []⟩
    ⟨"Registration successful", jwtSign ⟨"a@x.com", 3601⟩ "s",
      jwtSign ⟨"a@x.com", 604801⟩ "s"⟩ demoDb Reachable.init rfl

theorem uniqueEmailInvariant_witness :
    (demoDb.users.map User.email).Nodup ∧
    register "s" 9 3 "carol" "a@x.com" "pw2" demoDb =
      .error ⟨400, "Email already in use"⟩ :=
  ⟨(uniqueEmailInvariant "s").1 demoDb demoDb_reachable,
   (uniqueEmailInvariant "s").2 demoDb 9 3 "carol" "a@x.com" "pw2"
     (by decide) (by decide) (by decide) ⟨demoUser, by simp [demoDb], rfl⟩⟩

/-- C2 counterexample: a presented token whose expiry (exp = 50) has
passed at clock 100 but whose signature was made under a different secret
is answered with the generic invalid-token 403, not with the token-expired
response, because the middleware inherits the library order that checks
the signature before the exp claim. -/
theorem authenticateToken_expired_badsig :
    (50 : Nat) ≤ 100 ∧
    authenticateToken "secret" 100
        (some (.token ⟨⟨"a@x.com", 50⟩, jwtSignature ⟨"a@x.com", 50⟩ "other"⟩)) =
      .invalidToken ∧
    authenticateToken "secret" 100
        (some (.token ⟨⟨"a@x.com", 50⟩, jwtSignature ⟨"a@x.com", 50⟩ "other"⟩)) ≠
      .tokenExpired 50 := by decide

/-- C2 (amended): the middleware distinguishes its failure modes with the
caveat that the expired answer presupposes a signature valid under the
server secret: no token gives 401 unauthenticated, a correctly signed
token past its expiry gives token-expired carrying the exp value, a
malformed token or a wrong signature gives invalid-token even when the
embedded expiry has also passed, and a correctly signed unexpired token
passes with the embedded email as the identity. -/
theorem authenticateToken_modes (secret : String) (now : Nat) :
    authenticateToken secret now none = .unauthenticated ∧
    (∀ t : JwtToken, t.sig = jwtSignature t.payload secret → t.payload.exp ≤ now →
      authenticateToken secret now (some (.token t)) = .tokenExpired t.payload.exp) ∧
    (∀ raw : String,
      authenticateToken secret now (some (.malformed raw)) = .invalidToken) ∧
    (∀ t : JwtToken, t.sig ≠ jwtSignature t.payload secret →
      authenticateToken secret now (some (.token t)) = .invalidToken) ∧
    (∀ t : JwtToken, t.sig = jwtSignature t.payload secret → now < t.payload.exp →
      authenticateToken secret now (some (.token t)) = .authed t.payload.email) := by
  refine ⟨rfl, ?_, fun raw => rfl, ?_, ?_⟩
  · intro t hs hexp
    simp [authenticateToken, jwtVerify, hs, hexp]
  · intro t hs
    simp [authenticateToken, jwtVerify, hs]
  · intro t hs hexp
    simp [authenticateToken, jwtVerify, hs, Nat.not_le.mpr hexp]

theorem authenticateToken_modes_witness :
    authenticateToken "s" 100 none = .unauthenticated ∧
    authenticateToken "s" 100 (some (.token (jwtSign ⟨"a@x.com", 50⟩ "s"))) =
      .tokenExpired 50 ∧
    authenticateToken "s" 100 (some (.malformed "zzz")) = .invalidToken ∧
    authenticateToken "s" 100
        (some (.token ⟨⟨"a@x.com", 200⟩, jwtSignature ⟨"a@x.com", 200⟩ "t"⟩)) =
      .invalidToken ∧
    authenticateToken "s" 100 (some (.token (jwtSign ⟨"a@x.com", 200⟩ "s"))) =
      .authed "a@x.com" :=
  ⟨(authenticateToken_modes "s" 100).1,
   (authenticateToken_modes "s" 100).2.1 (jwtSign ⟨"a@x.com", 50⟩ "s") rfl (by decide),
   (authenticateToken_modes "s" 100).2.2.1 "zzz",
   (authenticateToken_modes "s" 100).2.2.2.1 ⟨⟨"a@x.com", 200⟩,
     jwtSignature ⟨"a@x.com", 200⟩ "t"⟩ (by decide),
   (authenticateToken_modes "s" 100).2.2.2.2 (jwtSign ⟨"a@x.com", 200⟩ "s") rfl (by decide)⟩

/-- C3: every failing login is answered with the one generic 400
invalid-credentials error, whether no user matches the email or the
stored hash does not verify against the password, so the response does
not reveal which check failed. -/
theorem login_generic_error (secret : String) (now : Nat) (email pw : String)
    (db : DB) :
    (db.users.find? (fun u => u.email == email) = none →
      login secret now email pw db = .error ⟨400, "Invalid credentials"⟩) ∧
    (∀ u : User, db.users.find? (fun x => x.email == email) = some u →
      bcryptCompare pw u.password = false →
      login secret now email pw db = .error ⟨400, "Invalid credentials"⟩) ∧
    (∀ e : ApiError, login secret now email pw db = .error e →
      e = ⟨400, "Invalid credentials"⟩) := by
  refine ⟨?_, ?_, ?_⟩
  · intro hf
    simp [login, hf]
  · intro u hf hc
    simp [login, hf, hc]
  · intro e
    unfold login
    cases hf : db.users.find? (fun u => u.email == email) with
    | none =>
      intro h
      injection h with h
      exact h.symm
    | some u =>
      intro h
      cases hc : bcryptCompare pw u.password with
      | true => simp [hc] at h
      | false =>
        simp [hc] at h
        exact h.symm

theorem login_generic_error_witness :
    login "s" 9 "b@x.com" "pw" demoDb = .error ⟨400, "Invalid credentials"⟩ ∧
    login "s" 9 "a@x.com" "wrong" demoDb = .error ⟨400, "Invalid credentials"⟩ :=
  ⟨(login_generic_error "s" 9 "b@x.com" "pw" demoDb).1 rfl,
   (login_generic_error "s" 9 "a@x.com" "wrong" demoDb).2.1 demoUser rfl rfl⟩

/-- C4: register rejects any request with an empty username, email or
password with the 400 validation error, and on success appends exactly one
new user whose counter is 0 and whose profile-image path is empty, stores
the password only as a salted bcrypt hash of work factor 10, leaves the
planes untouched, and returns an access token over the email expiring in
one hour and a refresh token over the email expiring in seven days, both
signed with the server secret. -/
theorem register_spec (secret : String) (now salt : Nat) (u e pw : String)
    (db : DB) :
    ((u = "" ∨ e = "" ∨ pw = "") →
      register secret now salt u e pw db = .error ⟨400, "All fields are required"⟩) ∧
    (∀ (out : RegisterOk) (db' : DB),
      register secret now salt u e pw db = .ok (out, db') →
      db'.users = db.users ++
        [{ username := u, email := e, password := bcryptHash salt 10 pw,
           numberOfPlanes := 0, profileImage := "", createdAt := now }] ∧
      (db'.users.filter (fun x => x.email == e)).length =
        (db.users.filter (fun x => x.email == e)).length + 1 ∧
      db'.planes = db.planes ∧
      out.token = jwtSign ⟨e, now + 3600⟩ secret ∧
      out.refreshToken = jwtSign ⟨e, now + 604800⟩ secret) := by
  constructor
  · intro hempty
    unfold register
    rw [if_pos hempty]
  · intro out db' h
    obtain ⟨ho, hd, -, -⟩ := register_ok_elim h
    subst ho hd
    refine ⟨rfl, ?_, rfl, rfl, rfl⟩
    simp [List.filter_append]

theorem register_spec_witness :
    register "s" 1 2 "" "a@x.com" "pw" ⟨[], []⟩ =
      .error ⟨400, "All fields are required"⟩ ∧
    demoDb.users = [] ++
      [{ username := "bob", email := "a@x.com", password := bcryptHash 2 10 "pw",
         numberOfPlanes := 0, profileImage := "", createdAt := 1 }] ∧
    demoDb.planes = ([] : List Plane) := by
  refine ⟨(register_spec "s" 1 2 "" "a@x.com" "pw" ⟨[], []⟩).1 (Or.inl rfl), ?_⟩
  have h := (register_spec "s" 1 2 "bob" "a@x.com" "pw" ⟨[], []⟩).2
    ⟨"Registration successful", jwtSign ⟨"a@x.com", 3601⟩ "s",
      jwtSign ⟨"a@x.com", 604801⟩ "s"⟩ demoDb rfl
  exact ⟨h.1, h.2.2.1⟩

/-- C5: add-plane rejects a request missing any of airport, planeModel,
airline or registration with the 400 validation error, and every
successful call appends exactly one plane record and rewrites exactly the
first user document carrying the caller email, raising its counter by
one, leaving every other user untouched (and the users collection
unchanged when no document carries that email). -/
theorem addPlane_spec (now : Nat) (em : String) (r : AddPlaneReq) (db : DB) :
    ((r.airport = "" ∨ r.planeModel = "" ∨ r.airline = "" ∨ r.registration = "") →
      addPlane now em r db = .error ⟨400, "Required fields missing"⟩) ∧
    (∀ db' : DB, addPlane now em r db = .ok db' →
      db'.planes = db.planes ++ [mkPlane now em r] ∧
      ((∀ x ∈ db.users, x.email ≠ em) → db'.users = db.users) ∧
      (∀ (l1 l2 : List User) (u : User), db.users = l1 ++ u :: l2 →
        (∀ x ∈ l1, x.email ≠ em) → u.email = em →
        db'.users = l1 ++
          { u with numberOfPlanes := u.numberOfPlanes + 1 } :: l2)) := by
  constructor
  · intro hempty
    unfold addPlane
    rw [if_pos hempty]
  · intro db' h
    obtain ⟨hd, -⟩ := addPlane_ok_elim h
    subst hd
    refine ⟨rfl, ?_, ?_⟩
    · intro hnone
      exact updateOne_eq_of_none _ _ db.users fun x hx => by
        simpa using hnone x hx
    · intro l1 l2 u hsplit h1 hu
      rw [hsplit]
      exact updateOne_append _ _ l1 l2 u
        (fun x hx => by simpa using h1 x hx) (by simp [hu])

theorem addPlane_spec_witness :
    addPlane 7 "a@x.com" ⟨"", "A320", "Croatia Airlines", "9A-CTA", none, none, none⟩
        demoDb = .error ⟨400, "Required fields missing"⟩ ∧
    ∀ db' : DB,
      addPlane 7 "a@x.com" ⟨"LDZA", "A320", "Croatia Airlines", "9A-CTA", none, none, none⟩
          demoDb = .ok db' →
      db'.planes = demoDb.planes ++
        [mkPlane 7 "a@x.com" ⟨"LDZA", "A320", "Croatia Airlines", "9A-CTA", none, none, none⟩] ∧
      db'.users = [] ++ { demoUser with numberOfPlanes := demoUser.numberOfPlanes + 1 } :: [] := by
  refine ⟨(addPlane_spec 7 "a@x.com" _ demoDb).1 (Or.inl rfl), fun db' h => ?_⟩
  have hs := (addPlane_spec 7 "a@x.com"
    ⟨"LDZA", "A320", "Croatia Airlines", "9A-CTA", none, none, none⟩ demoDb).2 db' h
  exact ⟨hs.1, hs.2.2 [] [] demoUser rfl (by simp) rfl⟩

/-- Further concrete data for witnesses: a plane owned by demoUser and a
plane whose owner is absent from the store. -/
def demoPlane : Plane :=
  ⟨"LDZA", "A320", "Croatia Airlines", "9A-CTA", 3, 4, "a@x.com", "", 5⟩

/-- A plane record whose owner email matches no stored user. -/
def demoPlane2 : Plane :=
  ⟨"SPLIT", "A319", "Trade Air", "9A-BTD", 3, 4, "ghost@x.com", "", 6⟩

/-- demoUser together with the two demo planes. -/
def demoDb2 : DB := ⟨[demoUser], [demoPlane, demoPlane2]⟩

/-- C6 counterexample: the raw airport parameter is spliced unescaped into
the anchored regex, so the query LDZ. (a regex dot) returns the record for
LDZA even though the two strings are not equal under case-insensitive
comparison; matching is therefore not exact equality for every query
string. -/
theorem listPlanes_regex_injection :
    lowerEq "LDZ." "LDZA" = false ∧
    listPlanes "LDZ."
        ⟨[], [⟨"LDZA", "A320", "Croatia Airlines", "9A-CTA", 0, 0, "a@x.com", "", 0⟩]⟩ =
      [⟨⟨"LDZA", "A320", "Croatia Airlines", "9A-CTA", 0, 0, "a@x.com", "", 0⟩,
        "Unknown"⟩] := by
  exact ⟨rfl, rfl⟩

/-- C6 (amended): for every query free of regex metacharacters (modelled
by the literal-and-dot fragment: no dot in the query) the airport, and the
airline when given, are matched by case-insensitive exact comparison, the
upper and lower case ZAGREB queries return identical result sets over any
store, and a query matching no record returns the empty sequence rather
than an error. -/
theorem listPlanes_case_insensitive (q a : String) (db : DB) :
    ('.' ∉ q.data →
      listPlanes q db =
        (db.planes.filter (fun p => lowerEq q p.airport)).map
          (fun p => ⟨p, lookupUsername db.users p.userId⟩)) ∧
    ('.' ∉ q.data → '.' ∉ a.data →
      listPlanesByAirline q a db =
        (db.planes.filter (fun p => lowerEq q p.airport && lowerEq a p.airline)).map
          (fun p => ⟨p, lookupUsername db.users p.userId⟩)) ∧
    listPlanes "ZAGREB" db = listPlanes "zagreb" db ∧
    ((∀ p ∈ db.planes, anchoredIMatch q p.airport = false) →
      listPlanes q db = []) := by
  refine ⟨?_, ?_, ?_, ?_⟩
  · intro h
    unfold listPlanes
    rw [List.filter_congr fun p _ => anchoredIMatch_noDot q p.airport h]
  · intro hq ha
    unfold listPlanesByAirline
    rw [List.filter_congr fun p _ => ?_]
    rw [anchoredIMatch_noDot q p.airport hq, anchoredIMatch_noDot a p.airline ha]
  · unfold listPlanes
    rw [List.filter_congr fun p _ => ?_]
    rw [anchoredIMatch_noDot "ZAGREB" p.airport (by decide),
      anchoredIMatch_noDot "zagreb" p.airport (by decide)]
    exact lowerEq_congr_left "ZAGREB" "zagreb" p.airport (by decide)
  · intro h
    unfold listPlanes
    rw [List.filter_eq_nil_iff.mpr fun p hp => by simp [h p hp]]
    rfl

theorem listPlanes_case_insensitive_witness :
    listPlanes "ldza" demoDb2 = [⟨demoPlane, "bob"⟩] ∧
    listPlanesByAirline "ldza" "croatia airlines" demoDb2 = [⟨demoPlane, "bob"⟩] ∧
    listPlanes "ZAGREB" demoDb2 = listPlanes "zagreb" demoDb2 ∧
    listPlanes "OSIJEK" demoDb2 = [] := by
  have h := listPlanes_case_insensitive "ldza" "croatia airlines" demoDb2
  have h4 := listPlanes_case_insensitive "OSIJEK" "x" demoDb2
  refine ⟨?_, ?_, h.2.2.1, h4.2.2.2 (by decide)⟩
  · rw [h.1 (by decide)]
    rfl
  · rw [h.2.1 (by decide) (by decide)]
    rfl

/-- C7: the list handler keeps every matched record, joining in the
username of the first user whose email equals the record owner email, and
substituting the sentinel Unknown when no such user exists, so a missing
join target never drops or fails the rest of the batch. -/
theorem listPlanes_join (airport : String) (db : DB) :
    ((listPlanes airport db).map EnrichedPlane.plane =
      db.planes.filter (fun p => anchoredIMatch airport p.airport)) ∧
    (∀ ep ∈ listPlanes airport db,
      (∀ u : User, db.users.find? (fun x => x.email == ep.plane.userId) = some u →
        ep.username = u.username) ∧
      (db.users.find? (fun x => x.email == ep.plane.userId) = none →
        ep.username = "Unknown")) := by
  constructor
  · simp [listPlanes, List.map_map, Function.comp_def]
  · intro ep hep
    unfold listPlanes at hep
    obtain ⟨p, hp, hpe⟩ := List.mem_map.mp hep
    subst hpe
    constructor
    · intro u hu
      simp only [lookupUsername]
      rw [hu]
    · intro hn
      simp only [lookupUsername]
      rw [hn]

theorem listPlanes_join_witness :
    (listPlanes "LDZA" demoDb2).map EnrichedPlane.plane =
      demoDb2.planes.filter (fun p => anchoredIMatch "LDZA" p.airport) ∧
    (⟨demoPlane, "bob"⟩ : EnrichedPlane).username = demoUser.username ∧
    (⟨demoPlane2, "Unknown"⟩ : EnrichedPlane).username = "Unknown" := by
  refine ⟨(listPlanes_join "LDZA" demoDb2).1, ?_, ?_⟩
  · exact ((listPlanes_join "LDZA" demoDb2).2 ⟨demoPlane, "bob"⟩ (by decide)).1
      demoUser rfl
  · exact ((listPlanes_join "SPLIT" demoDb2).2 ⟨demoPlane2, "Unknown"⟩ (by decide)).2
      rfl

/-- C8: delete-account removes the plane records first and the user
second; afterwards no plane record of the deleted owner remains, and the
list handler returns none of that owner's records for any airport. -/
theorem deleteAccount_cascade (em : String) (db : DB) :
    deleteAccount em db = deleteUserByEmail em (deletePlanesOf em db) ∧
    (deleteAccount em db).planes = db.planes.filter (fun p => p.userId != em) ∧
    (∀ p ∈ (deleteAccount em db).planes, p.userId ≠ em) ∧
    (∀ airport : String, ∀ ep ∈ listPlanes airport (deleteAccount em db),
      ep.plane.userId ≠ em) := by
  have hplanes : (deleteAccount em db).planes =
      db.planes.filter (fun p => p.userId != em) := rfl
  have hmem : ∀ p ∈ (deleteAccount em db).planes, p.userId ≠ em := by
    intro p hp
    rw [hplanes] at hp
    simpa using (List.mem_filter.mp hp).2
  refine ⟨rfl, hplanes, hmem, ?_⟩
  intro airport ep hep
  unfold listPlanes at hep
  obtain ⟨p, hp, hpe⟩ := List.mem_map.mp hep
  subst hpe
  exact hmem p (List.mem_filter.mp hp).1

theorem deleteAccount_cascade_witness :
    (deleteAccount "a@x.com" demoDb2).planes =
      demoDb2.planes.filter (fun p => p.userId != "a@x.com") ∧
    demoPlane2.userId ≠ "a@x.com" ∧
    (⟨demoPlane2, "Unknown"⟩ : EnrichedPlane).plane.userId ≠ "a@x.com" := by
  refine ⟨(deleteAccount_cascade "a@x.com" demoDb2).2.1, ?_, ?_⟩
  · exact (deleteAccount_cascade "a@x.com" demoDb2).2.2.1 demoPlane2 (by decide)
  · exact (deleteAccount_cascade "a@x.com" demoDb2).2.2.2 "SPLIT"
      ⟨demoPlane2, "Unknown"⟩ (by decide)

/-- C9 counterexample: the airlines handler splices the raw airport
parameter into the regex as well, so the query SPL.T (a regex dot)
collects the airlines of the SPLIT records even though the two strings are
not equal under case-insensitive comparison. -/
theorem listAirlines_regex_injection :
    lowerEq "SPL.T" "SPLIT" = false ∧
    listAirlines "SPL.T"
        ⟨[], [⟨"SPLIT", "A319", "Trade Air", "9A-BTD", 0, 0, "b@x.com", "", 0⟩]⟩ =
      ["Trade Air"] := by
  exact ⟨rfl, rfl⟩

/-- C9 (amended): the airlines listing never contains a duplicate, and for
every query free of regex metacharacters (no dot, in the modelled
fragment) a name appears in it exactly when some record of a
case-insensitively equal airport carries that airline. -/
theorem listAirlines_distinct (q : String) (db : DB) :
    (listAirlines q db).Nodup ∧
    ('.' ∉ q.data → ∀ al : String,
      (al ∈ listAirlines q db ↔
        ∃ p ∈ db.planes, lowerEq q p.airport = true ∧ p.airline = al)) := by
  constructor
  · exact List.nodup_dedup _
  · intro h al
    unfold listAirlines
    rw [List.mem_dedup, List.mem_map]
    constructor
    · rintro ⟨p, hp, hpe⟩
      have hm := List.mem_filter.mp hp
      refine ⟨p, hm.1, ?_, hpe⟩
      rw [← anchoredIMatch_noDot q p.airport h]
      exact hm.2
    · rintro ⟨p, hp, hmatch, hal⟩
      refine ⟨p, List.mem_filter.mpr ⟨hp, ?_⟩, hal⟩
      rw [anchoredIMatch_noDot q p.airport h]
      exact hmatch

theorem listAirlines_distinct_witness :
    (listAirlines "ldza" demoDb2).Nodup ∧
    "Trade Air" ∈ listAirlines "split" demoDb2 :=
  ⟨(listAirlines_distinct "ldza" demoDb2).1,
   ((listAirlines_distinct "split" demoDb2).2 (by decide) "Trade Air").mpr
     ⟨demoPlane2, by decide, rfl, rfl⟩⟩

/-- C10: the refresh endpoint verifies whatever token the body carries
against the same server secret and only reads its email claim, so an
unexpired access token issued by register is accepted and a fresh one-hour
access token over the same email is minted from it. -/
theorem refresh_accepts_access_token (secret : String) (iat now salt : Nat)
    (u e pw : String) (db : DB) (out : RegisterOk) (db' : DB) :
    register secret iat salt u e pw db = .ok (out, db') →
    now < iat + 3600 →
    refreshTokenEndpoint secret now (some (.token out.token)) =
      .ok (jwtSign ⟨e, now + 3600⟩ secret) := by
  intro h hlt
  obtain ⟨ho, -, -, -⟩ := register_ok_elim h
  subst ho
  simp [refreshTokenEndpoint, jwtVerify, jwtSign, Nat.not_le.mpr hlt]

theorem refresh_accepts_access_token_witness :
    refreshTokenEndpoint "s" 10 (some (.token (jwtSign ⟨"a@x.com", 3601⟩ "s"))) =
      .ok (jwtSign ⟨"a@x.com", 3610⟩ "s") :=
  refresh_accepts_access_token "s" 1 10 2 "bob" "a@x.com" "pw" ⟨[], []⟩
    ⟨"Registration successful", jwtSign ⟨"a@x.com", 3601⟩ "s",
      jwtSign ⟨"a@x.com", 604801⟩ "s"⟩ demoDb rfl (by decide)

end CroAviation
